/-
Verification of the Video-Fragmenter extraction core
(source: inout_extractorUI.py).

The Python program is a PyQt front-end; its decision logic is embedded
shallowly below:
  * `pythonInt` models Python's `int(str)` conversion on ASCII input
    (strip whitespace, optional sign, digits with single underscores
    between digits); `safe_int` is the `safe_int` helper inside
    `get_selected_time` (coerce conversion failure to 0).
  * `get_selected_time` combines the three combo-box texts.
  * `process_extraction` builds the output path and the ffmpeg argv.
  * `extract_video` is the range check plus extraction.
  * `ExtractorState` / `add_video` / `extract_all_videos` model the
    session state (`video_list` plus per-video UI rows) and the two
    button handlers.
External effects (message boxes, the subprocess, the filesystem) are
made observable as returned values.
-/

import Mathlib

namespace VideoFragmenter

/-- ASCII whitespace, as stripped by Python's `int(str)` conversion. -/
def isPySpace (c : Char) : Bool :=
  c = ' ' || c = '\t' || c = '\n' || c = '\r' || c = '\x0b' || c = '\x0c'

/-- Value of an ASCII decimal digit, `none` for any other character. -/
def digitVal (c : Char) : Option Nat :=
  if '0' ≤ c ∧ c ≤ '9' then some (c.toNat - '0'.toNat) else none

/-- Digit-run scanner for Python `int`: after at least one digit has been
read, accepts further digits, with single underscores allowed only
between digits.  The `Bool` records whether the previous character was
an underscore. -/
def pyDigitsGo : List Char → Bool → Nat → Option Nat
  | [], afterUnderscore, acc => if afterUnderscore then none else some acc
  | c :: rest, afterUnderscore, acc =>
    if c = '_' then
      if afterUnderscore then none else pyDigitsGo rest true acc
    else
      match digitVal c with
      | some d => pyDigitsGo rest false (acc * 10 + d)
      | none => none

/-- Nonempty digit run (Python `int` digit syntax): first character must
be a digit, then `pyDigitsGo`. -/
def pyDigits : List Char → Option Nat
  | [] => none
  | c :: rest =>
    match digitVal c with
    | some d => pyDigitsGo rest false d
    | none => none

/-- Strip leading and trailing whitespace, as `int(str)` does. -/
def pyStrip (cs : List Char) : List Char :=
  ((cs.dropWhile isPySpace).reverse.dropWhile isPySpace).reverse

/-- Model of Python `int(s)` on ASCII strings: `some n` when the
conversion succeeds with value `n`, `none` when it raises
`ValueError`. -/
def pythonInt (s : String) : Option Int :=
  match pyStrip s.data with
  | '-' :: rest => (pyDigits rest).map (fun n => -(n : Int))
  | '+' :: rest => (pyDigits rest).map (fun n => (n : Int))
  | cs => (pyDigits cs).map (fun n => (n : Int))

/-- `safe_int` from `VideoExtractor.get_selected_time`: `int(val)`,
with any conversion error coerced to 0. -/
def safe_int (val : String) : Int :=
  (pythonInt val).getD 0

/-- `VideoExtractor.get_selected_time`: reads the three combo-box texts
and combines them as `h*3600 + m*60 + s`. -/
def get_selected_time (hour_text minute_text second_text : String) : Int :=
  safe_int hour_text * 3600 + safe_int minute_text * 60 + safe_int second_text

/-- Two-digit zero padding: Python's `f"{i:02d}"` (combo items) and the
`%m %d %H %M %S` fields of `strftime`. -/
def fmt02 (n : Nat) : String :=
  if n < 10 then "0" ++ toString n else toString n

/-- Four-digit zero padding: the `%Y` field of `strftime`. -/
def fmt04 (n : Nat) : String :=
  if n < 10 then "000" ++ toString n
  else if n < 100 then "00" ++ toString n
  else if n < 1000 then "0" ++ toString n
  else toString n

/-- The items offered by an hour combo box: `f"{i:02d}"` for `i` in
`range(24)`; minute/second boxes use the same strings for `range(60)`. -/
def selector_item (i : Nat) : String := fmt02 i

/-- Wall-clock timestamp, the part of `datetime.datetime.now()` that
`process_extraction` formats. -/
structure PyDateTime where
  year : Nat
  month : Nat
  day : Nat
  hour : Nat
  minute : Nat
  second : Nat
deriving DecidableEq

/-- `datetime.now().strftime("%Y%m%d_%H%M%S")`. -/
def strftime_Ymd_HMS (t : PyDateTime) : String :=
  fmt04 t.year ++ fmt02 t.month ++ fmt02 t.day ++ "_" ++
    fmt02 t.hour ++ fmt02 t.minute ++ fmt02 t.second

/-- `os.path.basename` (POSIX): everything after the last `/`. -/
def basename (p : String) : String :=
  ⟨(p.data.reverse.takeWhile (fun c => c ≠ '/')).reverse⟩

/-- Whether a path string begins with `/` (the `b.startswith('/')` test
inside `os.path.join`). -/
def startsWithSlash (s : String) : Bool :=
  match s.data with
  | [] => false
  | c :: _ => c = '/'

/-- Whether a path string ends with `/` (the `a.endswith('/')` test
inside `os.path.join`). -/
def endsWithSlash (s : String) : Bool :=
  match s.data.getLast? with
  | none => false
  | some c => c = '/'

/-- `os.path.join(a, b)` (POSIX, two arguments). -/
def os_path_join (a b : String) : String :=
  if startsWithSlash b then b
  else if a = "" then b
  else if endsWithSlash a then a ++ b
  else a ++ "/" ++ b

/-- The `OUTPUT_FOLDER` constant. -/
def OUTPUT_FOLDER : String := "./output"

/-- The ephemeral extraction job: output path plus the argv passed to
`subprocess.run`. -/
structure ExtractionJob where
  output_file : String
  cmd : List String
deriving DecidableEq

/-- `VideoExtractor.process_extraction`: builds the timestamped output
path inside `OUTPUT_FOLDER` and the ffmpeg command
`["ffmpeg", "-i", input, "-ss", str(start), "-to", str(end), "-c",
"copy", output]`.  `now` is the wall-clock time of the invocation. -/
def process_extraction (input_file : String) (start_time end_time : Int)
    (now : PyDateTime) : ExtractionJob :=
  let timestamp := strftime_Ymd_HMS now
  let filename := basename input_file
  let output_file :=
    os_path_join OUTPUT_FOLDER (filename ++ "_clip_" ++ timestamp ++ ".mp4")
  { output_file := output_file
    cmd := ["ffmpeg", "-i", input_file, "-ss", toString start_time,
            "-to", toString end_time, "-c", "copy", output_file] }

/-- Outcome of `VideoExtractor.extract_video` for one file: either the
invalid-range early return, or a completed extraction job. -/
inductive ExtractResult where
  | invalidRange : ExtractResult
  | done : ExtractionJob → ExtractResult
deriving DecidableEq, Inhabited

/-- `VideoExtractor.extract_video`: reads both times, rejects when
`in_time >= out_time`, otherwise runs `process_extraction`. -/
def extract_video (file_path : String)
    (in_hour in_min in_sec out_hour out_min out_sec : String)
    (now : PyDateTime) : ExtractResult :=
  let in_time := get_selected_time in_hour in_min in_sec
  let out_time := get_selected_time out_hour out_min out_sec
  if in_time ≥ out_time then ExtractResult.invalidRange
  else ExtractResult.done (process_extraction file_path in_time out_time now)

/-- The external-tool invocations performed by one `extract_video` call
(each element is one `subprocess.run` argv). -/
def commands_run : ExtractResult → List (List String)
  | ExtractResult.invalidRange => []
  | ExtractResult.done job => [job.cmd]

/-- A message box shown to the user (`QMessageBox.warning` /
`QMessageBox.information`). -/
inductive UserMessage where
  | warning : String → String → UserMessage
  | information : String → String → UserMessage
deriving DecidableEq

/-- What `subprocess.run` hands back: the external tool's exit code and
stderr (`extract_video` never looks at either). -/
structure CompletedProcess where
  returncode : Int
  stderr : String
deriving DecidableEq

/-- `VideoExtractor.extract_video` with its external effects made
observable: `tool` is the behaviour of the external ffmpeg process on a
given argv; the result is the list of message boxes shown and the list
of completed subprocesses (in order).  The source discards the
`CompletedProcess`; mirroring that, the message list is produced without
consulting it. -/
def extract_video_run (tool : List String → CompletedProcess)
    (file_path : String)
    (in_hour in_min in_sec out_hour out_min out_sec : String)
    (now : PyDateTime) : List UserMessage × List CompletedProcess :=
  let in_time := get_selected_time in_hour in_min in_sec
  let out_time := get_selected_time out_hour out_min out_sec
  if in_time ≥ out_time then
    ([UserMessage.warning "Invalid Time" "OUT time must be greater than IN time."], [])
  else
    let job := process_extraction file_path in_time out_time now
    let completed := tool job.cmd
    ([UserMessage.information "Done"
        ("Extraction completed for " ++ basename file_path ++ "!")],
     [completed])

/-- One row of the video list widget, as `add_video_ui` builds it: the
title label text and the current texts of the six time combo boxes. -/
structure VideoRow where
  label : String
  in_hour : String
  in_min : String
  in_sec : String
  out_hour : String
  out_min : String
  out_sec : String
deriving DecidableEq, Inhabited

/-- Session state: `self.video_list` plus the widget rows (in list
order). -/
structure ExtractorState where
  video_list : List String
  rows : List VideoRow
deriving DecidableEq

/-- The row `add_video_ui(file_path)` creates: label
`"📽 " + basename(file_path)`, all six combo boxes showing their first
item `"00"`. -/
def default_row (file_path : String) : VideoRow :=
  { label := "📽 " ++ basename file_path
    in_hour := "00", in_min := "00", in_sec := "00"
    out_hour := "00", out_min := "00", out_sec := "00" }

/-- One iteration of the loop in `VideoExtractor.add_videos`: skip a
path already in `video_list`, otherwise append it and its UI row. -/
def add_video (st : ExtractorState) (file : String) : ExtractorState :=
  if file ∈ st.video_list then st
  else { video_list := st.video_list ++ [file]
         rows := st.rows ++ [default_row file] }

/-- `VideoExtractor.add_videos` over the list of paths returned by the
file dialog. -/
def add_videos (st : ExtractorState) (files : List String) : ExtractorState :=
  files.foldl add_video st

/-- Fuelled scanner for `str.replace` (all non-overlapping occurrences,
left to right).  Fuel `s.length` suffices since every step consumes at
least one character; the empty pattern is treated as a no-op (the
program only ever replaces the nonempty pattern `"📽 "`). -/
def replaceGo (pat rep : List Char) : Nat → List Char → List Char
  | 0, s => s
  | Nat.succ fuel, s =>
    match s with
    | [] => []
    | c :: rest =>
      if pat ≠ [] ∧ pat.isPrefixOf (c :: rest) then
        rep ++ replaceGo pat rep fuel ((c :: rest).drop pat.length)
      else
        c :: replaceGo pat rep fuel rest

/-- Python `s.replace(pat, rep)` for nonempty `pat`. -/
def python_str_replace (s pat rep : String) : String :=
  ⟨replaceGo pat.data rep.data s.data.length s.data⟩

/-- The generator expression in `extract_all_videos`:
`next((path for path in self.video_list if os.path.basename(path) ==
video_label), None)`. -/
def resolve_path (video_list : List String) (video_label : String) : Option String :=
  video_list.find? (fun path => basename path == video_label)

/-- One iteration of the `extract_all_videos` loop for one widget row:
strip the `"📽 "` prefix from the label, resolve it against
`video_list` (first basename match), skip (`continue`) when the result
is falsy (`None` or the empty string), otherwise extract with the row's
combo texts. -/
def row_attempt (video_list : List String) (now : PyDateTime)
    (row : VideoRow) : Option (String × ExtractResult) :=
  let video_label := python_str_replace row.label "📽 " ""
  match resolve_path video_list video_label with
  | none => none
  | some video_path =>
    if video_path = "" then none
    else some (video_path,
      extract_video video_path row.in_hour row.in_min row.in_sec
        row.out_hour row.out_min row.out_sec now)

/-- `VideoExtractor.extract_all_videos`: iterate the widget rows in list
order, performing `row_attempt` for each; the result records, in order,
each resolved path together with its `extract_video` outcome. -/
def extract_all_videos (st : ExtractorState) (now : PyDateTime) :
    List (String × ExtractResult) :=
  st.rows.filterMap (row_attempt st.video_list now)

/-! ### Sample inputs used by witnesses -/

/-- A fixed wall-clock time (the date in the source header). -/
def sample_now : PyDateTime := ⟨2025, 2, 27, 16, 10, 0⟩

/-- An external tool that succeeds. -/
def sample_tool : List String → CompletedProcess := fun _ => ⟨0, ""⟩

/-- An external tool that fails with a nonzero exit code and stderr. -/
def failing_tool : List String → CompletedProcess := fun _ => ⟨1, "ffmpeg: error"⟩

/-! ### Helper lemmas -/

theorem safe_int_of_none {t : String} (h : pythonInt t = none) : safe_int t = 0 := by
  simp [safe_int, h]

theorem safe_int_of_some {t : String} {n : Int} (h : pythonInt t = some n) :
    safe_int t = n := by
  simp [safe_int, h]

theorem safe_int_fmt02 : ∀ n < 60, safe_int (fmt02 n) = (n : Int) := by decide

/-! ### Claims -/

/-- C1: for every triple (path, in, out) with in_seconds ≥ out_seconds
(as read from the selectors), `extract_video` returns the invalid-range
rejection, surfaces the warning to the user, and never calls
`process_extraction` — no external-tool command is run. -/
theorem extract_rejects_invalid_range
    (file_path in_h in_m in_s out_h out_m out_s : String) (now : PyDateTime)
    (tool : List String → CompletedProcess)
    (h : get_selected_time in_h in_m in_s ≥ get_selected_time out_h out_m out_s) :
    extract_video file_path in_h in_m in_s out_h out_m out_s now =
      ExtractResult.invalidRange ∧
    commands_run (extract_video file_path in_h in_m in_s out_h out_m out_s now) = [] ∧
    extract_video_run tool file_path in_h in_m in_s out_h out_m out_s now =
      ([UserMessage.warning "Invalid Time" "OUT time must be greater than IN time."], []) := by
  have h1 : extract_video file_path in_h in_m in_s out_h out_m out_s now =
      ExtractResult.invalidRange := by
    unfold extract_video
    simp [h]
  refine ⟨h1, by simp [h1, commands_run], ?_⟩
  unfold extract_video_run
  simp [h]

theorem extract_rejects_invalid_range_witness :
    get_selected_time "00" "00" "05" ≥ get_selected_time "00" "00" "03" ∧
    (extract_video "a.mp4" "00" "00" "05" "00" "00" "03" sample_now =
        ExtractResult.invalidRange ∧
      commands_run (extract_video "a.mp4" "00" "00" "05" "00" "00" "03" sample_now) = [] ∧
      extract_video_run sample_tool "a.mp4" "00" "00" "05" "00" "00" "03" sample_now =
        ([UserMessage.warning "Invalid Time" "OUT time must be greater than IN time."], [])) :=
  ⟨by decide,
   extract_rejects_invalid_range "a.mp4" "00" "00" "05" "00" "00" "03"
     sample_now sample_tool (by decide)⟩

/-- C2: for every triple with in_seconds < out_seconds, `extract_video`
invokes the external tool exactly once, with the argument list
`ffmpeg -i <input> -ss <start> -to <end> -c copy <output>`, where start
and end are the selected in/out seconds rendered as decimal integers. -/
theorem extract_valid_range_runs_tool_once
    (file_path in_h in_m in_s out_h out_m out_s : String) (now : PyDateTime)
    (h : get_selected_time in_h in_m in_s < get_selected_time out_h out_m out_s) :
    commands_run (extract_video file_path in_h in_m in_s out_h out_m out_s now) =
      [["ffmpeg", "-i", file_path,
        "-ss", toString (get_selected_time in_h in_m in_s),
        "-to", toString (get_selected_time out_h out_m out_s),
        "-c", "copy",
        (process_extraction file_path (get_selected_time in_h in_m in_s)
          (get_selected_time out_h out_m out_s) now).output_file]] := by
  have hn : ¬ (get_selected_time in_h in_m in_s ≥
      get_selected_time out_h out_m out_s) := not_le.mpr h
  unfold extract_video
  simp only [if_neg hn]
  rfl

theorem extract_valid_range_runs_tool_once_witness :
    get_selected_time "00" "00" "03" < get_selected_time "00" "01" "00" ∧
    commands_run (extract_video "/v/a.mp4" "00" "00" "03" "00" "01" "00" sample_now) =
      [["ffmpeg", "-i", "/v/a.mp4",
        "-ss", toString (get_selected_time "00" "00" "03"),
        "-to", toString (get_selected_time "00" "01" "00"),
        "-c", "copy",
        (process_extraction "/v/a.mp4" (get_selected_time "00" "00" "03")
          (get_selected_time "00" "01" "00") sample_now).output_file]] :=
  ⟨by decide,
   extract_valid_range_runs_tool_once "/v/a.mp4" "00" "00" "03" "00" "01" "00"
     sample_now (by decide)⟩

/-- C4: for every hour, minute and second chosen from the selector
ranges (hour 0–23, minute/second 0–59, displayed as the two-digit combo
items), `get_selected_time` returns `h*3600 + m*60 + s`. -/
theorem selected_time_combines_fields (h m s : Nat)
    (hh : h ≤ 23) (hm : m ≤ 59) (hs : s ≤ 59) :
    get_selected_time (selector_item h) (selector_item m) (selector_item s) =
      (h : Int) * 3600 + (m : Int) * 60 + (s : Int) := by
  have Hh := safe_int_fmt02 h (by omega)
  have Hm := safe_int_fmt02 m (by omega)
  have Hs := safe_int_fmt02 s (by omega)
  unfold get_selected_time selector_item
  rw [Hh, Hm, Hs]

theorem selected_time_combines_fields_witness :
    (1 ≤ 23 ∧ 2 ≤ 59 ∧ 3 ≤ 59) ∧
    get_selected_time (selector_item 1) (selector_item 2) (selector_item 3) = 3723 :=
  ⟨by decide, by
    rw [selected_time_combines_fields 1 2 3 (by decide) (by decide) (by decide)]
    decide⟩

/-- C6: a non-numeric (unparsable) text in any one of the three time
fields contributes 0 seconds, and `get_selected_time` still returns a
value (the embedding is a total function, mirroring that `safe_int`
catches the conversion error instead of letting it propagate). -/
theorem nonnumeric_entry_reads_zero (t a b : String) (h : pythonInt t = none) :
    safe_int t = 0 ∧
    get_selected_time t a b = safe_int a * 60 + safe_int b ∧
    get_selected_time a t b = safe_int a * 3600 + safe_int b ∧
    get_selected_time a b t = safe_int a * 3600 + safe_int b * 60 := by
  have hz := safe_int_of_none h
  refine ⟨hz, ?_, ?_, ?_⟩ <;> simp [get_selected_time, hz]

theorem nonnumeric_entry_reads_zero_witness :
    pythonInt "abc" = none ∧
    (safe_int "abc" = 0 ∧
      get_selected_time "abc" "02" "03" = safe_int "02" * 60 + safe_int "03" ∧
      get_selected_time "02" "abc" "03" = safe_int "02" * 3600 + safe_int "03" ∧
      get_selected_time "02" "03" "abc" = safe_int "02" * 3600 + safe_int "03" * 60) :=
  ⟨by decide, nonnumeric_entry_reads_zero "abc" "02" "03" (by decide)⟩

/-- C5 (as stated, refuted): it is not the case that every out-of-range
integer entry is coerced to 0 by the time-reading operation — the hour
text "99" parses to 99 and is passed through at that value. -/
theorem time_reading_coercion_counterexample :
    ¬ (∀ (t : String) (n : Int), pythonInt t = some n →
        (n < 0 ∨ 23 < n) → safe_int t = 0) := by
  intro h
  have h99 := h "99" 99 (by decide) (by decide)
  have hv : safe_int "99" = 99 := by decide
  rw [hv] at h99
  exact absurd h99 (by decide)

/-- C5 (amended): the time-reading operation coerces exactly the
non-numeric entries to 0; any entry that parses as an integer —
including out-of-range and negative values — is passed through at its
parsed value (range enforcement lives only in the entry-time
validator, not in `get_selected_time`). -/
theorem time_reading_passthrough (t : String) :
    (pythonInt t = none → safe_int t = 0) ∧
    (∀ n : Int, pythonInt t = some n → safe_int t = n) :=
  ⟨fun h => safe_int_of_none h, fun _ h => safe_int_of_some h⟩

theorem time_reading_passthrough_witness :
    (pythonInt "xx" = none ∧ safe_int "xx" = 0) ∧
    (pythonInt "-7" = some (-7) ∧ safe_int "-7" = -7) ∧
    (pythonInt "99" = some 99 ∧ safe_int "99" = 99) :=
  ⟨⟨by decide, (time_reading_passthrough "xx").1 (by decide)⟩,
   ⟨by decide, (time_reading_passthrough "-7").2 (-7) (by decide)⟩,
   ⟨by decide, (time_reading_passthrough "99").2 99 (by decide)⟩⟩

/-- C9: the messages reported by `extract_video` are independent of the
external tool's behaviour (exit code and stderr are never inspected),
and every valid-range extraction reports "Done" whatever the tool did. -/
theorem done_reported_regardless_of_tool
    (file_path in_h in_m in_s out_h out_m out_s : String) (now : PyDateTime) :
    (∀ tool₁ tool₂ : List String → CompletedProcess,
      (extract_video_run tool₁ file_path in_h in_m in_s out_h out_m out_s now).1 =
        (extract_video_run tool₂ file_path in_h in_m in_s out_h out_m out_s now).1) ∧
    (get_selected_time in_h in_m in_s < get_selected_time out_h out_m out_s →
      ∀ tool : List String → CompletedProcess,
        (extract_video_run tool file_path in_h in_m in_s out_h out_m out_s now).1 =
          [UserMessage.information "Done"
            ("Extraction completed for " ++ basename file_path ++ "!")]) := by
  constructor
  · intro tool₁ tool₂
    unfold extract_video_run
    by_cases h : get_selected_time in_h in_m in_s ≥ get_selected_time out_h out_m out_s <;>
      simp [h]
  · intro h tool
    unfold extract_video_run
    simp [if_neg (not_le.mpr h)]

theorem done_reported_regardless_of_tool_witness :
    get_selected_time "00" "00" "01" < get_selected_time "00" "00" "02" ∧
    (extract_video_run failing_tool "a.mp4" "00" "00" "01" "00" "00" "02" sample_now).1 =
      [UserMessage.information "Done"
        ("Extraction completed for " ++ basename "a.mp4" ++ "!")] ∧
    (extract_video_run failing_tool "a.mp4" "00" "00" "01" "00" "00" "02" sample_now).1 =
      (extract_video_run sample_tool "a.mp4" "00" "00" "01" "00" "00" "02" sample_now).1 :=
  ⟨by decide,
   (done_reported_regardless_of_tool "a.mp4" "00" "00" "01" "00" "00" "02"
      sample_now).2 (by decide) failing_tool,
   (done_reported_regardless_of_tool "a.mp4" "00" "00" "01" "00" "00" "02"
      sample_now).1 failing_tool sample_tool⟩

theorem mem_add_video (st : ExtractorState) (file : String) :
    file ∈ (add_video st file).video_list := by
  unfold add_video
  by_cases h : file ∈ st.video_list <;> simp [h]

theorem add_video_mem_noop (st : ExtractorState) (file : String)
    (h : file ∈ st.video_list) : add_video st file = st := by
  unfold add_video
  simp [h]

theorem count_add_video_le (st : ExtractorState) (file f : String)
    (h : st.video_list.count file ≤ 1) :
    ((add_video st f).video_list).count file ≤ 1 := by
  unfold add_video
  by_cases hf : f ∈ st.video_list
  · simpa [hf]
  · simp only [hf, if_false, List.count_append]
    by_cases hfe : f = file
    · subst hfe
      have : st.video_list.count f = 0 := by
        simpa using List.count_eq_zero.mpr hf
      simp [this]
    · have : List.count file [f] = 0 := by
        simp only [List.count_singleton', if_neg hfe]
      omega

theorem count_add_videos_le (files : List String) (st : ExtractorState)
    (file : String) (h : st.video_list.count file ≤ 1) :
    ((add_videos st files).video_list).count file ≤ 1 := by
  induction files generalizing st with
  | nil => simpa [add_videos]
  | cons f fs ih =>
    have := count_add_video_le st file f h
    simpa [add_videos, List.foldl_cons] using ih (add_video st f) this

/-- C7: adding a path already present is a no-op on the whole state;
adding the same path twice from any reachable state (tracked list
without duplicate entries of that path) leaves exactly one tracked
entry for it — and every state built by `add_videos` from the initial
empty state is such a state; a newly added entry carries the default
row whose in and out selections both read as 0 seconds. -/
theorem add_file_idempotent (st : ExtractorState) (file : String) :
    (file ∈ st.video_list → add_video st file = st) ∧
    (add_video (add_video st file) file = add_video st file) ∧
    (st.video_list.count file ≤ 1 →
      ((add_video (add_video st file) file).video_list).count file = 1) ∧
    (∀ files : List String,
      ((add_videos ⟨[], []⟩ files).video_list).count file ≤ 1) ∧
    (file ∉ st.video_list →
      (add_video st file).rows = st.rows ++ [default_row file]) ∧
    get_selected_time (default_row file).in_hour (default_row file).in_min
      (default_row file).in_sec = 0 ∧
    get_selected_time (default_row file).out_hour (default_row file).out_min
      (default_row file).out_sec = 0 := by
  have hnoop : file ∈ st.video_list → add_video st file = st :=
    fun h => add_video_mem_noop st file h
  have hidem : add_video (add_video st file) file = add_video st file :=
    add_video_mem_noop (add_video st file) file (mem_add_video st file)
  have hz : get_selected_time "00" "00" "00" = 0 := by decide
  refine ⟨hnoop, hidem, ?_, ?_, ?_, hz, hz⟩
  · intro hc
    rw [hidem]
    unfold add_video
    by_cases h : file ∈ st.video_list
    · have h1 : 1 ≤ st.video_list.count file := List.one_le_count_iff.mpr h
      simp only [h, if_true]
      omega
    · have h0 : st.video_list.count file = 0 := List.count_eq_zero.mpr h
      simp [h, List.count_append, h0]
  · intro files
    exact count_add_videos_le files ⟨[], []⟩ file (by simp)
  · intro h
    unfold add_video
    rw [if_neg h]

theorem add_file_idempotent_witness :
    ("/v/a.mp4" ∈ (["/v/a.mp4", "/v/b.mp4"] : List String) ∧
      (⟨["/v/a.mp4", "/v/b.mp4"], []⟩ : ExtractorState).video_list.count "/v/a.mp4" ≤ 1 ∧
      "/v/c.mp4" ∉ (["/v/a.mp4", "/v/b.mp4"] : List String)) ∧
    add_video ⟨["/v/a.mp4", "/v/b.mp4"], []⟩ "/v/a.mp4" = ⟨["/v/a.mp4", "/v/b.mp4"], []⟩ ∧
    ((add_video (add_video ⟨["/v/a.mp4", "/v/b.mp4"], []⟩ "/v/a.mp4")
        "/v/a.mp4").video_list).count "/v/a.mp4" = 1 ∧
    (add_video ⟨["/v/a.mp4", "/v/b.mp4"], []⟩ "/v/c.mp4").rows =
      [] ++ [default_row "/v/c.mp4"] ∧
    get_selected_time (default_row "/v/c.mp4").in_hour (default_row "/v/c.mp4").in_min
      (default_row "/v/c.mp4").in_sec = 0 :=
  ⟨⟨by decide, by decide, by decide⟩,
   (add_file_idempotent ⟨["/v/a.mp4", "/v/b.mp4"], []⟩ "/v/a.mp4").1 (by decide),
   (add_file_idempotent ⟨["/v/a.mp4", "/v/b.mp4"], []⟩ "/v/a.mp4").2.2.1 (by decide),
   (add_file_idempotent ⟨["/v/a.mp4", "/v/b.mp4"], []⟩ "/v/c.mp4").2.2.2.2.1 (by decide),
   (add_file_idempotent ⟨["/v/a.mp4", "/v/b.mp4"], []⟩ "/v/c.mp4").2.2.2.2.2.1⟩

theorem filterMap_total_eq_map {α β : Type} [Inhabited β] (f : α → Option β) :
    ∀ l : List α, (∀ a ∈ l, (f a).isSome) →
      l.filterMap f = l.map (fun a => (f a).get!) := by
  intro l
  induction l with
  | nil => intro _; rfl
  | cons a l ih =>
    intro h
    obtain ⟨b, hb⟩ := Option.isSome_iff_exists.mp (h a (by simp))
    simp only [List.filterMap_cons, hb, List.map_cons]
    rw [ih fun x hx => h x (by simp [hx])]
    rfl

/-- C8: when every widget row resolves to a tracked path, a run of
`extract_all_videos` is exactly the row-by-row list of `extract_video`
attempts, in list order — even when some row `k` has an invalid range
(`in >= out`), every other row is still attempted, because the invalid
row merely contributes its own rejection in place. -/
theorem extract_all_attempts_every_entry
    (st : ExtractorState) (now : PyDateTime) (k : Nat) (hk : k < st.rows.length)
    (hres : ∀ row ∈ st.rows, (row_attempt st.video_list now row).isSome)
    (hinvalid : get_selected_time (st.rows.get ⟨k, hk⟩).in_hour
        (st.rows.get ⟨k, hk⟩).in_min (st.rows.get ⟨k, hk⟩).in_sec ≥
      get_selected_time (st.rows.get ⟨k, hk⟩).out_hour
        (st.rows.get ⟨k, hk⟩).out_min (st.rows.get ⟨k, hk⟩).out_sec) :
    extract_all_videos st now =
      st.rows.map (fun row => (row_attempt st.video_list now row).get!) ∧
    (extract_all_videos st now).length = st.rows.length := by
  have hmap := filterMap_total_eq_map (row_attempt st.video_list now) st.rows hres
  refine ⟨hmap, ?_⟩
  unfold extract_all_videos
  rw [hmap]
  exact List.length_map _ _

def sample_state : ExtractorState :=
  { video_list := ["/v/a.mp4", "/v/b.mp4"]
    rows := [⟨"📽 a.mp4", "00", "00", "00", "00", "00", "00"⟩,
             ⟨"📽 b.mp4", "00", "00", "00", "00", "00", "01"⟩] }

theorem extract_all_attempts_every_entry_witness :
    (0 < sample_state.rows.length ∧
      (∀ row ∈ sample_state.rows,
        (row_attempt sample_state.video_list sample_now row).isSome) ∧
      get_selected_time (sample_state.rows.get ⟨0, by decide⟩).in_hour
          (sample_state.rows.get ⟨0, by decide⟩).in_min
          (sample_state.rows.get ⟨0, by decide⟩).in_sec ≥
        get_selected_time (sample_state.rows.get ⟨0, by decide⟩).out_hour
          (sample_state.rows.get ⟨0, by decide⟩).out_min
          (sample_state.rows.get ⟨0, by decide⟩).out_sec) ∧
    (extract_all_videos sample_state sample_now =
        sample_state.rows.map
          (fun row => (row_attempt sample_state.video_list sample_now row).get!) ∧
      (extract_all_videos sample_state sample_now).length =
        sample_state.rows.length) :=
  ⟨⟨by decide, by decide, by decide⟩,
   extract_all_attempts_every_entry sample_state sample_now 0 (by decide)
     (by decide) (by decide)⟩

theorem find?_first_index {α : Type} (p : α → Bool) :
    ∀ (l : List α) (i : Nat) (hi : i < l.length),
      p (l.get ⟨i, hi⟩) = true →
      (∀ k (hk : k < i), p (l.get ⟨k, Nat.lt_trans hk hi⟩) = false) →
      l.find? p = some (l.get ⟨i, hi⟩) := by
  intro l
  induction l with
  | nil => intro i hi; exact absurd hi (by simp)
  | cons a l ih =>
    intro i hi hp hk
    cases i with
    | zero => exact List.find?_cons_of_pos _ hp
    | succ i =>
      have ha : p a = false := hk 0 (Nat.succ_pos i)
      rw [List.find?_cons_of_neg _ (by simp [ha])]
      exact ih i (Nat.lt_of_succ_lt_succ hi) hp
        (fun k hkk => hk (k + 1) (Nat.succ_lt_succ hkk))

/-- C10: `extract_all_videos` resolves a row to the first tracked path
whose basename equals the row's displayed basename; with two tracked
paths of equal basename both of their rows resolve to the earlier one,
so the later path is never extracted, and a row whose label matches no
tracked path is silently skipped. -/
theorem extract_all_basename_collision :
    (∀ (l : List String) (i j : Nat) (hi : i < l.length) (hj : j < l.length),
      i < j →
      basename (l.get ⟨i, hi⟩) = basename (l.get ⟨j, hj⟩) →
      (∀ k (hk : k < i), basename (l.get ⟨k, Nat.lt_trans hk hi⟩) ≠
        basename (l.get ⟨j, hj⟩)) →
      resolve_path l (basename (l.get ⟨j, hj⟩)) = some (l.get ⟨i, hi⟩)) ∧
    (∀ (vl : List String) (rows : List VideoRow) (row : VideoRow) (now : PyDateTime),
      resolve_path vl (python_str_replace row.label "📽 " "") = none →
      extract_all_videos ⟨vl, row :: rows⟩ now = extract_all_videos ⟨vl, rows⟩ now) ∧
    ((extract_all_videos
        ⟨["/a/clip.mp4", "/b/clip.mp4"],
         [⟨"📽 clip.mp4", "00", "00", "00", "00", "00", "01"⟩,
          ⟨"📽 clip.mp4", "00", "00", "00", "00", "00", "01"⟩]⟩ sample_now).map
        Prod.fst = ["/a/clip.mp4", "/a/clip.mp4"]) := by
  refine ⟨?_, ?_, by decide⟩
  · intro l i j hi hj hij heq hfirst
    unfold resolve_path
    apply find?_first_index (fun path => basename path == basename (l.get ⟨j, hj⟩))
        l i hi
    · simp only [beq_iff_eq]
      simpa using heq
    · intro k hk
      simpa using hfirst k hk
  · intro vl rows row now h
    unfold extract_all_videos
    simp only [List.filterMap_cons]
    have hnone : row_attempt vl now row = none := by
      unfold row_attempt
      simp [h]
    rw [hnone]

theorem extract_all_basename_collision_witness :
    ((1 : Nat) < 2 ∧
      basename (["/x/v.mkv", "/a/clip.mp4", "/b/clip.mp4"].get ⟨1, by decide⟩) =
        basename (["/x/v.mkv", "/a/clip.mp4", "/b/clip.mp4"].get ⟨2, by decide⟩) ∧
      resolve_path ["/x/v.mkv", "/a/clip.mp4", "/b/clip.mp4"]
        (basename (["/x/v.mkv", "/a/clip.mp4", "/b/clip.mp4"].get ⟨2, by decide⟩)) =
        some (["/x/v.mkv", "/a/clip.mp4", "/b/clip.mp4"].get ⟨1, by decide⟩)) ∧
    (resolve_path ["/v/a.mp4"]
        (python_str_replace
          (VideoRow.label ⟨"orphan", "00", "00", "00", "00", "00", "00"⟩) "📽 " "") =
        none ∧
      extract_all_videos
          ⟨["/v/a.mp4"], [⟨"orphan", "00", "00", "00", "00", "00", "00"⟩]⟩ sample_now =
        extract_all_videos ⟨["/v/a.mp4"], []⟩ sample_now) :=
  ⟨⟨by decide, by decide,
    extract_all_basename_collision.1 ["/x/v.mkv", "/a/clip.mp4", "/b/clip.mp4"]
      1 2 (by decide) (by decide) (by decide) (by decide) (by decide)⟩,
   ⟨by decide,
    extract_all_basename_collision.2.1 ["/v/a.mp4"] []
      ⟨"orphan", "00", "00", "00", "00", "00", "00"⟩ sample_now (by decide)⟩⟩

theorem string_data_append : ∀ (a b : String), (a ++ b).data = a.data ++ b.data
  | ⟨_⟩, ⟨_⟩ => rfl

theorem string_ext : ∀ {a b : String}, a.data = b.data → a = b
  | ⟨_⟩, ⟨_⟩, h => congrArg String.mk h

theorem mem_basename_ne_slash (p : String) {c : Char}
    (h : c ∈ (basename p).data) : c ≠ '/' := by
  have h' : c ∈ p.data.reverse.takeWhile (fun x => x ≠ '/') :=
    List.mem_reverse.mp h
  simpa using List.mem_takeWhile_imp h'

theorem startsWithSlash_eq_false_of_head (s : String) (c : Char) (cs : List Char)
    (h : s.data = c :: cs) (hc : c ≠ '/') : startsWithSlash s = false := by
  unfold startsWithSlash
  rw [h]
  simp [hc]

theorem output_name_not_slash (p : String) (ts : String) :
    startsWithSlash (basename p ++ "_clip_" ++ ts ++ ".mp4") = false := by
  cases hb : (basename p).data with
  | nil =>
    apply startsWithSlash_eq_false_of_head _ '_'
      ("clip_".data ++ ts.data ++ ".mp4".data)
    · simp only [string_data_append, hb, List.nil_append]
      simp [List.append_assoc]
    · decide
  | cons c cs =>
    apply startsWithSlash_eq_false_of_head _ c
      (cs ++ "_clip_".data ++ ts.data ++ ".mp4".data)
    · simp only [string_data_append, hb]
      simp [List.append_assoc]
    · exact mem_basename_ne_slash p (hb ▸ List.mem_cons_self c cs)

theorem os_path_join_output (s : String) (h : startsWithSlash s = false) :
    os_path_join OUTPUT_FOLDER s = "./output/" ++ s := by
  have h2 : endsWithSlash OUTPUT_FOLDER = false := by decide
  unfold os_path_join
  simp only [h, h2, Bool.false_eq_true, if_false]
  rw [if_neg (by decide : ¬ (OUTPUT_FOLDER = ""))]
  apply string_ext
  simp only [string_data_append]
  have h3 : OUTPUT_FOLDER.data ++ "/".data = "./output/".data := by decide
  rw [h3]

/-- C3: for every source path, time range and invocation wall-clock
time, the output path is the fixed `./output` directory joined with
`{basename}_clip_{YYYYMMDD_HHMMSS}.mp4`; in particular source
"clip.mp4" at 2025-02-27 16:10:00 yields
`./output/clip.mp4_clip_20250227_161000.mp4`. -/
theorem output_path_format (p : String) (start_time end_time : Int)
    (now : PyDateTime) :
    (process_extraction p start_time end_time now).output_file =
      "./output/" ++ (basename p ++ "_clip_" ++ strftime_Ymd_HMS now ++ ".mp4") ∧
    (process_extraction "clip.mp4" start_time end_time
        ⟨2025, 2, 27, 16, 10, 0⟩).output_file =
      "./output/clip.mp4_clip_20250227_161000.mp4" := by
  constructor
  · show os_path_join OUTPUT_FOLDER
        (basename p ++ "_clip_" ++ strftime_Ymd_HMS now ++ ".mp4") = _
    exact os_path_join_output _ (output_name_not_slash p (strftime_Ymd_HMS now))
  · show os_path_join OUTPUT_FOLDER
        (basename "clip.mp4" ++ "_clip_" ++
          strftime_Ymd_HMS ⟨2025, 2, 27, 16, 10, 0⟩ ++ ".mp4") = _
    decide

end VideoFragmenter
